import Mathlib

/-!
Verification of the standalone Stockfish analysis script
(.github/analysis/run_stockfish_analysis.py).

The script is sequential glue: it parses a configured date range, iterates
month by month fetching games from a chess service, keeps the games whose
end time falls inside the closed date range, runs a mistake analysis on the
accumulated games, and serializes metadata plus results to a JSON file.
The two collaborators (game fetching and mistake aggregation) live outside
this repository, so they are abstracted as parameters of the model.

Modelling conventions:

- Python datetime values are totally ordered.  Where the script compares a
  datetime built by datetime.fromtimestamp against the parsed start and end
  datetimes, we represent all three by their POSIX timestamps (integers);
  fromtimestamp is strictly monotone and maps the epoch to 0, so under this
  representation it is the identity.
- Where the script manipulates the calendar fields of a datetime
  (current.year, current.month, current.replace at the foot of the loop,
  and the loop guard comparing datetimes whose time of day is zero), we use
  an explicit calendar Date of year, month and day; the guard comparison is
  lexicographic, which agrees with chronological order for such values.
  The start and end datetimes therefore appear twice in the model, once as
  a Date for the loop and once as a timestamp for the filter; both stand
  for the same parsed value.
- The while loop is rendered as structural recursion on a fuel argument so
  that the model stays executable; the fuel supplied by runFetchPhase
  strictly exceeds the number of iterations possible for any calendar
  dates, and the theorems show the fuel is never exhausted on the runs they
  describe.
- Observable effects (service calls, the log lines the claims mention, the
  file write) are recorded in an explicit event trace.  Informational
  banner prints that no claim mentions are not modelled.
- datetime.replace validates its result and raises ValueError when the kept
  day is out of range for the new month; that exception is raised outside
  the try block of the loop body, so the model propagates it as an error.
-/

namespace StockfishScript

/-- Configured username, module-level constant of the script. -/
def USERNAME : String := "jay_fh"

/-- Configured start of the date range, module-level constant of the script. -/
def START_DATE : String := "2026-01-01"

/-- Configured end of the date range, module-level constant of the script. -/
def END_DATE : String := "2026-01-31"

/-- Configured timezone label, module-level constant of the script. -/
def TIMEZONE : String := "Bangkok"

/-- Calendar view of a Python datetime whose time of day is zero, as produced
by datetime.strptime with a year-month-day format. -/
structure Date where
  year : Int
  month : Int
  day : Int
deriving DecidableEq

/-- Python comparison of two datetimes with equal (zero) time of day:
chronological order, i.e. lexicographic on (year, month, day). -/
def Date.leb (a b : Date) : Bool :=
  decide (a.year < b.year ∨
    (a.year = b.year ∧ (a.month < b.month ∨ (a.month = b.month ∧ a.day ≤ b.day))))

/-- Proleptic Gregorian leap-year rule used by Python datetime. -/
def isLeapYear (y : Int) : Prop :=
  y % 4 = 0 ∧ (y % 100 ≠ 0 ∨ y % 400 = 0)

instance (y : Int) : Decidable (isLeapYear y) := by
  unfold isLeapYear; infer_instance

/-- Number of days of a month, as enforced by datetime.replace. -/
def daysInMonth (y m : Int) : Int :=
  if m = 2 then (if isLeapYear y then 29 else 28)
  else if m = 4 ∨ m = 6 ∨ m = 9 ∨ m = 11 then 30
  else 31

/-- The date update at the foot of the loop body: current.replace moving to
the next calendar month (December rolls over to January of the next year)
while keeping the day of month.  datetime.replace validates the resulting
date and raises ValueError when the kept day is out of range for the new
month; the update sits outside the try block, so the error propagates. -/
def Date.nextMonth (d : Date) : Except String Date :=
  if d.month = 12 then
    if 1 ≤ d.day ∧ d.day ≤ daysInMonth (d.year + 1) 1 then
      Except.ok ⟨d.year + 1, 1, d.day⟩
    else Except.error ("ValueError: day is out of range for month")
  else
    if 1 ≤ d.month + 1 ∧ d.month + 1 ≤ 12 then
      if 1 ≤ d.day ∧ d.day ≤ daysInMonth d.year (d.month + 1) then
        Except.ok ⟨d.year, d.month + 1, d.day⟩
      else Except.error ("ValueError: day is out of range for month")
    else Except.error ("ValueError: month must be in 1..12")

/-- Linear index of a calendar month, used to state which months the loop
visits. -/
def monthIdx (y m : Int) : Int := 12 * y + m

/-- Month index of a date. -/
def Date.idx (d : Date) : Int := monthIdx d.year d.month

/-- Inverse of monthIdx on valid months (1 to 12). -/
def ofIdx (i : Int) : Int × Int := ((i - 1) / 12, (i - 1) % 12 + 1)

/-- The chronological list of (year, month) pairs from the month of s to the
month of e inclusive; empty when s's month is after e's. -/
def monthRange (s e : Date) : List (Int × Int) :=
  (List.range (e.idx + 1 - s.idx).toNat).map (fun (k : Nat) => ofIdx (s.idx + (k : Int)))

/-- A fetched game record.  The script inspects only the end_time field,
with game.get defaulting to 0 when the field is missing; payload stands for
the rest of the record, carried through unchanged. -/
structure Game where
  end_time : Option Int
  payload : String
deriving DecidableEq

/-- datetime.fromtimestamp under the timestamp representation of datetimes:
it is strictly monotone and maps the epoch to 0, so it is the identity on
the representation. -/
def fromtimestamp (t : Int) : Int := t

/-- The date filter applied to each fetched game: keep the game exactly when
the datetime of its end_time field (missing field read as 0) lies in the
closed interval from the start datetime to the end datetime. -/
def inRange (startT endT : Int) (g : Game) : Bool :=
  decide (startT ≤ fromtimestamp (g.end_time.getD 0) ∧
    fromtimestamp (g.end_time.getD 0) ≤ endT)

/-- Metadata object serialized under the metadata key of the output file;
its fields are exactly the six entries the script writes. -/
structure Metadata where
  username : String
  start_date : String
  end_date : String
  timezone : String
  analysis_date : String
  total_games : Nat
deriving DecidableEq

/-- The output object serialized to the JSON file.  The type of the mistake
analysis value is abstract: it is whatever the analytics collaborator
returned. -/
structure Output (α : Type) where
  metadata : Metadata
  mistake_analysis : α
  games : List Game
deriving DecidableEq

/-- Observable events of a run, in order: fetch attempts (calls to
get_games_by_month), the per-month log lines, the no-games log line, the
invocation of the mistake aggregation, and the file write. -/
inductive Event (α : Type) where
  | fetchAttempt (year month : Int)
  | logMonthOk (year month : Int) (count : Nat)
  | logMonthErr (year month : Int) (msg : String)
  | logNoGames
  | analyzeCall (username : String) (games : List Game)
  | writeFile (path : String) (data : Output α)
deriving DecidableEq

/-- Whether an event is the invocation of the mistake aggregation. -/
def Event.isAnalyzeCall {α : Type} : Event α → Bool
  | Event.analyzeCall _ _ => true
  | _ => false

/-- Whether an event is the output file write. -/
def Event.isWriteFile {α : Type} : Event α → Bool
  | Event.writeFile _ _ => true
  | _ => false

/-- The (year, month) arguments of the fetch attempts of a trace, in order. -/
def fetchAttempts {α : Type} (tr : List (Event α)) : List (Int × Int) :=
  tr.filterMap (fun e => match e with
    | Event.fetchAttempt y m => some (y, m)
    | _ => none)

/-- The external collaborators and ambient effects the script depends on:
the game fetching service, the mistake aggregation of the analytics
service, JSON serialization to the output file, and the current time used
for the analysis timestamp.  Each fallible operation returns an error to
model a raised exception. -/
structure Env (α : Type) where
  fetch : String → Int → Int → Except String (List Game)
  analyze : String → List Game → Except String α
  dump : Output α → Except String Unit
  now : String

/-- Name of the output file built by the script from the configuration
strings (the directory prefix is not modelled). -/
def outputPath (username startS endS : String) : String :=
  "stockfish_analysis_" ++ username ++ "_" ++ startS ++ "_to_" ++ endS ++ ".json"

/-- The output object the script assembles before serialization. -/
def mkOutput {α : Type} (username startS endS tz now : String) (ma : α)
    (gs : List Game) : Output α :=
  { metadata :=
      { username := username
        start_date := startS
        end_date := endS
        timezone := tz
        analysis_date := now
        total_games := gs.length }
    mistake_analysis := ma
    games := gs }

/-- The fetch-and-filter while loop (lines 55 to 73 of the script), rendered
as recursion on fuel.  Each iteration whose guard current less-or-equal end
holds attempts one fetch; an exception from the fetch is caught and logged
and contributes no games, a successful fetch contributes its date-filtered
games; then the date advances one month, and a ValueError from the advance
propagates.  The returned list concatenates the per-month contributions in
iteration order, exactly as the extend calls build all_games.  Running out
of fuel yields an error that, as the theorems show, never occurs with the
fuel supplied by runFetchPhase on calendar dates. -/
def fetchLoopF {α : Type} (fuel : Nat)
    (fetch : String → Int → Int → Except String (List Game)) (username : String)
    (startT endT : Int) (endD cur : Date) :
    List (Event α) × Except String (List Game) :=
  match fuel with
  | 0 => ([], Except.error ("model: out of fuel"))
  | Nat.succ fuel =>
    if cur.leb endD then
      match fetch username cur.year cur.month with
      | Except.ok games =>
        let filtered := games.filter (inRange startT endT)
        match cur.nextMonth with
        | Except.ok next =>
          let rest := fetchLoopF (α := α) fuel fetch username startT endT endD next
          (Event.fetchAttempt cur.year cur.month ::
             Event.logMonthOk cur.year cur.month filtered.length :: rest.1,
           rest.2.map (fun gs => filtered ++ gs))
        | Except.error e =>
          ([Event.fetchAttempt cur.year cur.month,
            Event.logMonthOk cur.year cur.month filtered.length], Except.error e)
      | Except.error e =>
        match cur.nextMonth with
        | Except.ok next =>
          let rest := fetchLoopF (α := α) fuel fetch username startT endT endD next
          (Event.fetchAttempt cur.year cur.month ::
             Event.logMonthErr cur.year cur.month e :: rest.1, rest.2)
        | Except.error e2 =>
          ([Event.fetchAttempt cur.year cur.month,
            Event.logMonthErr cur.year cur.month e], Except.error e2)
    else ([], Except.ok [])

/-- Fuel that strictly exceeds the number of loop iterations for any
calendar dates: the loop guard forces the month index of current to stay
at most one year past the end month, and every iteration increases it by
one. -/
def fetchFuel (s e : Date) : Nat := (e.idx + 14 - s.idx).toNat

/-- The complete fetch-and-filter phase of a run, from the parsed start
date. -/
def runFetchPhase {α : Type}
    (fetch : String → Int → Int → Except String (List Game)) (username : String)
    (startT endT : Int) (startD endD : Date) :
    List (Event α) × Except String (List Game) :=
  fetchLoopF (fetchFuel startD endD) fetch username startT endT endD startD

/-- The games returned by the fetch collaborator over a list of months, in
order; a month whose fetch raised contributes nothing. -/
def gamesReturned (fetch : String → Int → Int → Except String (List Game))
    (username : String) : List (Int × Int) → List Game
  | [] => []
  | p :: ms =>
    (match fetch username p.1 p.2 with
     | Except.ok gs => gs
     | Except.error _ => []) ++ gamesReturned fetch username ms

/-- The body of main after service initialization: run the fetch phase; if
no games were accumulated, log the no-games line and return None; otherwise
run the mistake aggregation on the accumulated games, assemble the output
object and serialize it, returning the output path.  An exception from the
aggregation, the serialization, or the date advance inside the loop
propagates out of main.  The result pairs the event trace with either the
value main returns or the propagated exception. -/
def mainRun {α : Type} (env : Env α) (username startS endS tz : String)
    (startD endD : Date) (startT endT : Int) :
    List (Event α) × Except String (Option String) :=
  match runFetchPhase (α := α) env.fetch username startT endT startD endD with
  | (tr, Except.error e) => (tr, Except.error e)
  | (tr, Except.ok all_games) =>
    if all_games.isEmpty then (tr ++ [Event.logNoGames], Except.ok none)
    else
      match env.analyze username all_games with
      | Except.error e =>
        (tr ++ [Event.analyzeCall username all_games], Except.error e)
      | Except.ok ma =>
        match env.dump (mkOutput username startS endS tz env.now ma all_games) with
        | Except.error e =>
          (tr ++ [Event.analyzeCall username all_games], Except.error e)
        | Except.ok _ =>
          (tr ++ [Event.analyzeCall username all_games,
                  Event.writeFile (outputPath username startS endS)
                    (mkOutput username startS endS tz env.now ma all_games)],
           Except.ok (some (outputPath username startS endS)))

/-- Outcome of the whole process: the event trace, the exit status, and
whether the error line and the traceback of the top-level handler were
printed. -/
structure ScriptResult (α : Type) where
  trace : List (Event α)
  exitCode : Nat
  errorPrinted : Bool
  tracebackPrinted : Bool
deriving DecidableEq

/-- The top-level guard of the script: call main; on a normal return the
process ends with status 0; on an exception the handler prints the error
line and the traceback and calls sys.exit with 1. -/
def script {α : Type} (env : Env α) (username startS endS tz : String)
    (startD endD : Date) (startT endT : Int) : ScriptResult α :=
  match mainRun env username startS endS tz startD endD startT endT with
  | (tr, Except.ok _) => ⟨tr, 0, false, false⟩
  | (tr, Except.error _) => ⟨tr, 1, true, true⟩

/-! Helper lemmas about the calendar arithmetic of the loop. -/

lemma daysInMonth_ge (y m : Int) : 28 ≤ daysInMonth y m := by
  unfold daysInMonth
  split_ifs <;> norm_num

lemma nextMonth_ok {d : Date} (h1 : 1 ≤ d.month) (h2 : d.month ≤ 12)
    (h3 : 1 ≤ d.day) (h4 : d.day ≤ 28) :
    ∃ next : Date, d.nextMonth = Except.ok next ∧ next.idx = d.idx + 1 ∧
      1 ≤ next.month ∧ next.month ≤ 12 ∧ next.day = d.day := by
  unfold Date.nextMonth
  by_cases h12 : d.month = 12
  · refine ⟨⟨d.year + 1, 1, d.day⟩, ?_, ?_, by norm_num, by norm_num, rfl⟩
    · rw [if_pos h12, if_pos ⟨h3, le_trans h4 (daysInMonth_ge _ _)⟩]
    · simp only [Date.idx, monthIdx, h12]
      omega
  · refine ⟨⟨d.year, d.month + 1, d.day⟩, ?_, ?_,
      (by show (1 : Int) ≤ d.month + 1; omega),
      (by show d.month + 1 ≤ (12 : Int); omega), rfl⟩
    · rw [if_neg h12, if_pos (by omega),
        if_pos ⟨h3, le_trans h4 (daysInMonth_ge _ _)⟩]
    · simp only [Date.idx, monthIdx]
      omega

lemma leb_iff_idx {a b : Date} (ha1 : 1 ≤ a.month) (ha2 : a.month ≤ 12)
    (hb1 : 1 ≤ b.month) (hb2 : b.month ≤ 12) (hd : a.day ≤ b.day) :
    a.leb b = true ↔ a.idx ≤ b.idx := by
  unfold Date.leb Date.idx monthIdx
  simp only [decide_eq_true_eq]
  omega

lemma ofIdx_monthIdx {y m : Int} (h1 : 1 ≤ m) (h2 : m ≤ 12) :
    ofIdx (monthIdx y m) = (y, m) := by
  unfold ofIdx monthIdx
  simp only [Prod.mk.injEq]
  omega

lemma monthRange_cons {s e : Date} (h1 : 1 ≤ s.month) (h2 : s.month ≤ 12)
    (hle : s.idx ≤ e.idx) (next : Date) (hn : next.idx = s.idx + 1) :
    monthRange s e = (s.year, s.month) :: monthRange next e := by
  unfold monthRange
  have hcount : (e.idx + 1 - s.idx).toNat = (e.idx + 1 - next.idx).toNat + 1 := by
    omega
  rw [hcount, List.range_succ_eq_map]
  simp only [List.map_cons, List.map_map]
  refine congrArg₂ List.cons ?_ ?_
  · have h0 : s.idx + ((0 : Nat) : Int) = monthIdx s.year s.month := by
      simp [Date.idx]
    rw [h0, ofIdx_monthIdx h1 h2]
  · apply List.map_congr_left
    intro k _
    simp only [Function.comp_apply]
    congr 1
    push_cast
    omega

lemma monthRange_nil {s e : Date} (h : e.idx < s.idx) : monthRange s e = [] := by
  unfold monthRange
  have : (e.idx + 1 - s.idx).toNat = 0 := by omega
  simp [this]

/-! Step equations of the fetch-and-filter loop. -/

section LoopLemmas

variable {α : Type} (fetch : String → Int → Int → Except String (List Game))
variable (u : String) (sT eT : Int) (endD : Date)

lemma fetchLoopF_done {fuel : Nat} {cur : Date} (hg : ¬cur.leb endD = true) :
    fetchLoopF (α := α) (fuel + 1) fetch u sT eT endD cur = ([], Except.ok []) := by
  simp [fetchLoopF, hg]

lemma fetchLoopF_step_ok {fuel : Nat} {cur next : Date} {games : List Game}
    (hg : cur.leb endD = true)
    (hfe : fetch u cur.year cur.month = Except.ok games)
    (hnm : cur.nextMonth = Except.ok next) :
    fetchLoopF (α := α) (fuel + 1) fetch u sT eT endD cur =
      (Event.fetchAttempt cur.year cur.month ::
         Event.logMonthOk cur.year cur.month
           (games.filter (inRange sT eT)).length ::
         (fetchLoopF (α := α) fuel fetch u sT eT endD next).1,
       ((fetchLoopF (α := α) fuel fetch u sT eT endD next).2).map
         (fun gs => games.filter (inRange sT eT) ++ gs)) := by
  simp [fetchLoopF, hg, hfe, hnm]

lemma fetchLoopF_step_err {fuel : Nat} {cur next : Date} {msg : String}
    (hg : cur.leb endD = true)
    (hfe : fetch u cur.year cur.month = Except.error msg)
    (hnm : cur.nextMonth = Except.ok next) :
    fetchLoopF (α := α) (fuel + 1) fetch u sT eT endD cur =
      (Event.fetchAttempt cur.year cur.month ::
         Event.logMonthErr cur.year cur.month msg ::
         (fetchLoopF (α := α) fuel fetch u sT eT endD next).1,
       (fetchLoopF (α := α) fuel fetch u sT eT endD next).2) := by
  simp [fetchLoopF, hg, hfe, hnm]

lemma fetchLoopF_stop_ok {fuel : Nat} {cur : Date} {games : List Game}
    {e2 : String} (hg : cur.leb endD = true)
    (hfe : fetch u cur.year cur.month = Except.ok games)
    (hnm : cur.nextMonth = Except.error e2) :
    fetchLoopF (α := α) (fuel + 1) fetch u sT eT endD cur =
      ([Event.fetchAttempt cur.year cur.month,
        Event.logMonthOk cur.year cur.month
          (games.filter (inRange sT eT)).length], Except.error e2) := by
  simp [fetchLoopF, hg, hfe, hnm]

lemma fetchLoopF_stop_err {fuel : Nat} {cur : Date} {msg e2 : String}
    (hg : cur.leb endD = true)
    (hfe : fetch u cur.year cur.month = Except.error msg)
    (hnm : cur.nextMonth = Except.error e2) :
    fetchLoopF (α := α) (fuel + 1) fetch u sT eT endD cur =
      ([Event.fetchAttempt cur.year cur.month,
        Event.logMonthErr cur.year cur.month msg], Except.error e2) := by
  simp [fetchLoopF, hg, hfe, hnm]

lemma fetchAttempts_nil : fetchAttempts ([] : List (Event α)) = [] := by
  simp [fetchAttempts]

lemma fetchAttempts_cons_attempt (y m : Int) (tr : List (Event α)) :
    fetchAttempts (Event.fetchAttempt y m :: tr) = (y, m) :: fetchAttempts tr := by
  simp [fetchAttempts]

lemma fetchAttempts_cons_logOk (y m : Int) (n : Nat) (tr : List (Event α)) :
    fetchAttempts (Event.logMonthOk y m n :: tr) = fetchAttempts tr := by
  simp [fetchAttempts]

lemma fetchAttempts_cons_logErr (y m : Int) (msg : String)
    (tr : List (Event α)) :
    fetchAttempts (Event.logMonthErr y m msg :: tr) = fetchAttempts tr := by
  simp [fetchAttempts]

lemma gamesReturned_cons_ok {y m : Int} {gs : List Game}
    (ms : List (Int × Int)) (h : fetch u y m = Except.ok gs) :
    gamesReturned fetch u ((y, m) :: ms) = gs ++ gamesReturned fetch u ms := by
  simp [gamesReturned, h]

lemma gamesReturned_cons_err {y m : Int} {msg : String}
    (ms : List (Int × Int)) (h : fetch u y m = Except.error msg) :
    gamesReturned fetch u ((y, m) :: ms) = gamesReturned fetch u ms := by
  simp [gamesReturned, h]

/-- Every event emitted by the loop is a fetch attempt or a per-month log
line: the loop neither analyzes nor writes nor prints the no-games line. -/
lemma loopTrace_events :
    ∀ (fuel : Nat) (cur : Date) (e : Event α),
      e ∈ (fetchLoopF (α := α) fuel fetch u sT eT endD cur).1 →
      e.isAnalyzeCall = false ∧ e.isWriteFile = false ∧ e ≠ Event.logNoGames := by
  intro fuel
  induction fuel with
  | zero => intro cur e he; simp [fetchLoopF] at he
  | succ fuel ih =>
    intro cur e he
    by_cases hg : cur.leb endD = true
    · cases hfe : fetch u cur.year cur.month with
      | ok games =>
        cases hnm : cur.nextMonth with
        | ok next =>
          rw [fetchLoopF_step_ok fetch u sT eT endD hg hfe hnm] at he
          rcases List.mem_cons.mp he with rfl | he
          · exact ⟨rfl, rfl, by simp⟩
          rcases List.mem_cons.mp he with rfl | he
          · exact ⟨rfl, rfl, by simp⟩
          exact ih next e he
        | error e2 =>
          rw [fetchLoopF_stop_ok fetch u sT eT endD hg hfe hnm] at he
          rcases List.mem_cons.mp he with rfl | he
          · exact ⟨rfl, rfl, by simp⟩
          rcases List.mem_cons.mp he with rfl | he
          · exact ⟨rfl, rfl, by simp⟩
          simp at he
      | error msg =>
        cases hnm : cur.nextMonth with
        | ok next =>
          rw [fetchLoopF_step_err fetch u sT eT endD hg hfe hnm] at he
          rcases List.mem_cons.mp he with rfl | he
          · exact ⟨rfl, rfl, by simp⟩
          rcases List.mem_cons.mp he with rfl | he
          · exact ⟨rfl, rfl, by simp⟩
          exact ih next e he
        | error e2 =>
          rw [fetchLoopF_stop_err fetch u sT eT endD hg hfe hnm] at he
          rcases List.mem_cons.mp he with rfl | he
          · exact ⟨rfl, rfl, by simp⟩
          rcases List.mem_cons.mp he with rfl | he
          · exact ⟨rfl, rfl, by simp⟩
          simp at he
    · rw [fetchLoopF_done fetch u sT eT endD hg] at he
      simp at he

/-- The list the loop accumulates is exactly the concatenation of the games
returned by the successful fetches, filtered by the date predicate. -/
lemma loopGames_filter :
    ∀ (fuel : Nat) (cur : Date) (gs : List Game),
      (fetchLoopF (α := α) fuel fetch u sT eT endD cur).2 = Except.ok gs →
      gs = (gamesReturned fetch u
          (fetchAttempts (fetchLoopF (α := α) fuel fetch u sT eT endD cur).1)).filter
        (inRange sT eT) := by
  intro fuel
  induction fuel with
  | zero => intro cur gs h; simp [fetchLoopF] at h
  | succ fuel ih =>
    intro cur gs h
    by_cases hg : cur.leb endD = true
    · cases hfe : fetch u cur.year cur.month with
      | ok games =>
        cases hnm : cur.nextMonth with
        | ok next =>
          rw [fetchLoopF_step_ok fetch u sT eT endD hg hfe hnm] at h ⊢
          cases hr : (fetchLoopF (α := α) fuel fetch u sT eT endD next).2 with
          | error e2 => rw [hr] at h; simp [Except.map] at h
          | ok gs' =>
            rw [hr] at h
            simp only [Except.map, Except.ok.injEq] at h
            subst h
            rw [fetchAttempts_cons_attempt, fetchAttempts_cons_logOk,
              gamesReturned_cons_ok fetch u _ hfe, List.filter_append,
              ← ih next gs' hr]
        | error e2 =>
          rw [fetchLoopF_stop_ok fetch u sT eT endD hg hfe hnm] at h
          simp at h
      | error msg =>
        cases hnm : cur.nextMonth with
        | ok next =>
          rw [fetchLoopF_step_err fetch u sT eT endD hg hfe hnm] at h ⊢
          rw [fetchAttempts_cons_attempt, fetchAttempts_cons_logErr,
            gamesReturned_cons_err fetch u _ hfe]
          exact ih next gs h
        | error e2 =>
          rw [fetchLoopF_stop_err fetch u sT eT endD hg hfe hnm] at h
          simp at h
    · rw [fetchLoopF_done fetch u sT eT endD hg] at h
      simp only [Except.ok.injEq] at h
      subst h
      rw [fetchLoopF_done fetch u sT eT endD hg]
      simp [fetchAttempts, gamesReturned]

/-- With a start day that is valid in every month (at most 28) and not
larger than the end day, the loop fetches exactly the months from the
current month through the end month, in chronological order, and completes
without raising. -/
lemma loopCalendar (hbm1 : 1 ≤ endD.month) (hbm2 : endD.month ≤ 12) :
    ∀ (fuel : Nat) (cur : Date), 1 ≤ cur.month → cur.month ≤ 12 →
      1 ≤ cur.day → cur.day ≤ 28 → cur.day ≤ endD.day →
      (endD.idx + 1 - cur.idx).toNat < fuel →
      fetchAttempts (fetchLoopF (α := α) fuel fetch u sT eT endD cur).1 =
          monthRange cur endD ∧
        ∃ gs, (fetchLoopF (α := α) fuel fetch u sT eT endD cur).2 = Except.ok gs := by
  intro fuel
  induction fuel with
  | zero => intro cur _ _ _ _ _ hf; omega
  | succ fuel ih =>
    intro cur h1 h2 h3 h4 h5 hf
    by_cases hg : cur.leb endD = true
    · have hidx : cur.idx ≤ endD.idx := (leb_iff_idx h1 h2 hbm1 hbm2 h5).mp hg
      obtain ⟨next, hnm, hni, hn1, hn2, hnd⟩ := nextMonth_ok h1 h2 h3 h4
      have hIH := ih next hn1 hn2 (by rw [hnd]; exact h3) (by rw [hnd]; exact h4)
        (by rw [hnd]; exact h5) (by omega)
      cases hfe : fetch u cur.year cur.month with
      | ok games =>
        rw [fetchLoopF_step_ok fetch u sT eT endD hg hfe hnm]
        constructor
        · rw [fetchAttempts_cons_attempt, fetchAttempts_cons_logOk, hIH.1,
            ← monthRange_cons h1 h2 hidx next hni]
        · obtain ⟨gs', hgs'⟩ := hIH.2
          exact ⟨games.filter (inRange sT eT) ++ gs', by rw [hgs']; rfl⟩
      | error msg =>
        rw [fetchLoopF_step_err fetch u sT eT endD hg hfe hnm]
        constructor
        · rw [fetchAttempts_cons_attempt, fetchAttempts_cons_logErr, hIH.1,
            ← monthRange_cons h1 h2 hidx next hni]
        · exact hIH.2
    · have hidx : ¬cur.idx ≤ endD.idx := fun hle =>
        hg ((leb_iff_idx h1 h2 hbm1 hbm2 h5).mpr hle)
      rw [fetchLoopF_done fetch u sT eT endD hg]
      exact ⟨by rw [fetchAttempts_nil, monthRange_nil (by omega)], [], rfl⟩

end LoopLemmas

/-! Helper lemmas about the phase structure of main and the exit guard. -/

section MainLemmas

variable {α : Type} (env : Env α) (u sS eS tz : String) (sD eD : Date)
variable (sT eT : Int)

/-- Exhaustive description of the five ways a run of main can go: the loop
raises while advancing the date; no games are found; the aggregation
raises; the serialization raises; everything succeeds. -/
lemma mainRun_shape :
    (∃ tr e, runFetchPhase (α := α) env.fetch u sT eT sD eD = (tr, Except.error e) ∧
      mainRun env u sS eS tz sD eD sT eT = (tr, Except.error e)) ∨
    (∃ tr, runFetchPhase (α := α) env.fetch u sT eT sD eD = (tr, Except.ok []) ∧
      mainRun env u sS eS tz sD eD sT eT =
        (tr ++ [Event.logNoGames], Except.ok none)) ∨
    (∃ tr gs e, runFetchPhase (α := α) env.fetch u sT eT sD eD = (tr, Except.ok gs) ∧
      gs ≠ [] ∧ env.analyze u gs = Except.error e ∧
      mainRun env u sS eS tz sD eD sT eT =
        (tr ++ [Event.analyzeCall u gs], Except.error e)) ∨
    (∃ tr gs ma e, runFetchPhase (α := α) env.fetch u sT eT sD eD = (tr, Except.ok gs) ∧
      gs ≠ [] ∧ env.analyze u gs = Except.ok ma ∧
      env.dump (mkOutput u sS eS tz env.now ma gs) = Except.error e ∧
      mainRun env u sS eS tz sD eD sT eT =
        (tr ++ [Event.analyzeCall u gs], Except.error e)) ∨
    (∃ tr gs ma, runFetchPhase (α := α) env.fetch u sT eT sD eD = (tr, Except.ok gs) ∧
      gs ≠ [] ∧ env.analyze u gs = Except.ok ma ∧
      env.dump (mkOutput u sS eS tz env.now ma gs) = Except.ok () ∧
      mainRun env u sS eS tz sD eD sT eT =
        (tr ++ [Event.analyzeCall u gs,
                Event.writeFile (outputPath u sS eS)
                  (mkOutput u sS eS tz env.now ma gs)],
         Except.ok (some (outputPath u sS eS)))) := by
  unfold mainRun
  rcases hp : runFetchPhase (α := α) env.fetch u sT eT sD eD with ⟨tr, res⟩
  cases res with
  | error e => exact Or.inl ⟨tr, e, rfl, by simp⟩
  | ok gs =>
    by_cases hgs : gs = []
    · subst hgs
      exact Or.inr (Or.inl ⟨tr, rfl, by simp⟩)
    · have hne : gs.isEmpty = false := by
        simp [List.isEmpty_iff, hgs]
      cases ha : env.analyze u gs with
      | error e =>
        exact Or.inr (Or.inr (Or.inl ⟨tr, gs, e, rfl, hgs, ha, by simp [hne, ha]⟩))
      | ok ma =>
        cases hd : env.dump (mkOutput u sS eS tz env.now ma gs) with
        | error e =>
          exact Or.inr (Or.inr (Or.inr (Or.inl
            ⟨tr, gs, ma, e, rfl, hgs, ha, hd, by simp [hne, ha, hd]⟩)))
        | ok un =>
          cases un
          exact Or.inr (Or.inr (Or.inr (Or.inr
            ⟨tr, gs, ma, rfl, hgs, ha, hd, by simp [hne, ha, hd]⟩)))

/-- The guard on a normal return of main: status 0, nothing printed by the
handler. -/
lemma script_ok {tr : List (Event α)} {r : Option String}
    (h : mainRun env u sS eS tz sD eD sT eT = (tr, Except.ok r)) :
    script env u sS eS tz sD eD sT eT = ⟨tr, 0, false, false⟩ := by
  unfold script; rw [h]

/-- The guard on an exception escaping main: the handler prints the error
line and the traceback and exits with status 1. -/
lemma script_err {tr : List (Event α)} {e : String}
    (h : mainRun env u sS eS tz sD eD sT eT = (tr, Except.error e)) :
    script env u sS eS tz sD eD sT eT = ⟨tr, 1, true, true⟩ := by
  unfold script; rw [h]

/-- Events of a completed fetch phase, read off the pair equality. -/
lemma runFetch_events {α : Type}
    (fetch : String → Int → Int → Except String (List Game)) (u : String)
    (sT eT : Int) {sD eD : Date} {tr : List (Event α)}
    {res : Except String (List Game)}
    (hp : runFetchPhase (α := α) fetch u sT eT sD eD = (tr, res)) :
    ∀ e ∈ tr, Event.isAnalyzeCall e = false ∧ Event.isWriteFile e = false ∧
      e ≠ Event.logNoGames := by
  intro e he
  have h1 : (fetchLoopF (α := α) (fetchFuel sD eD) fetch u sT eT eD sD).1 = tr := by
    unfold runFetchPhase at hp; rw [hp]
  rw [← h1] at he
  exact loopTrace_events fetch u sT eT eD (fetchFuel sD eD) sD e he

end MainLemmas

/-! Concrete fixtures used by the witnesses and counterexamples. -/

instance {ε σ : Type} [DecidableEq ε] [DecidableEq σ] : DecidableEq (Except ε σ) :=
  fun a b =>
    match a, b with
    | Except.ok x, Except.ok y =>
      if h : x = y then isTrue (by rw [h]) else isFalse (by simp [h])
    | Except.error x, Except.error y =>
      if h : x = y then isTrue (by rw [h]) else isFalse (by simp [h])
    | Except.ok _, Except.error _ => isFalse (by simp)
    | Except.error _, Except.ok _ => isFalse (by simp)

/-- The parsed start date, datetime.strptime of START_DATE. -/
def parsedStart : Date := ⟨2026, 1, 1⟩

/-- The parsed end date, datetime.strptime of END_DATE. -/
def parsedEnd : Date := ⟨2026, 1, 31⟩

/-- Timestamp view of the parsed start date (epoch seconds); the exact value
is irrelevant to the claims. -/
def startTs : Int := 1767225600

/-- Timestamp view of the parsed end date (epoch seconds). -/
def endTs : Int := 1769817600

/-- Environment whose fetch finds no games and whose collaborators succeed. -/
def envEmpty : Env Unit :=
  { fetch := fun _ _ _ => Except.ok []
    analyze := fun _ _ => Except.ok ()
    dump := fun _ => Except.ok ()
    now := "2026-02-01T00:00:00" }

/-- Environment whose fetch returns one game inside the configured range. -/
def envOne : Env Unit :=
  { fetch := fun _ _ _ => Except.ok [{ end_time := some 1768000000, payload := "g1" }]
    analyze := fun _ _ => Except.ok ()
    dump := fun _ => Except.ok ()
    now := "2026-02-01T00:00:00" }

/-- Environment whose fetch returns one game in range and whose mistake
aggregation raises. -/
def envAnalyzeFail : Env Unit :=
  { fetch := fun _ _ _ => Except.ok [{ end_time := some 1768000000, payload := "g1" }]
    analyze := fun _ _ => Except.error ("engine crashed")
    dump := fun _ => Except.ok ()
    now := "2026-02-01T00:00:00" }

/-- Fetch collaborator that raises for January and succeeds otherwise. -/
def fetchJanFails : String → Int → Int → Except String (List Game) :=
  fun _ _ m => if m = 1 then Except.error ("HTTPError 500") else Except.ok []

/-- Fetch collaborator that always returns the empty month bucket. -/
def fetchNone : String → Int → Int → Except String (List Game) :=
  fun _ _ _ => Except.ok []

/-- Fetch collaborator returning one record that lacks the end-time field. -/
def fetchNoEndTime : String → Int → Int → Except String (List Game) :=
  fun _ _ _ => Except.ok [{ end_time := none, payload := "g0" }]

/-- Fetch collaborator returning one game inside and one game outside the
filter interval used by the C3 witness. -/
def fetchMixed : String → Int → Int → Except String (List Game) :=
  fun _ _ _ => Except.ok
    [{ end_time := some 10, payload := "in" }, { end_time := some 2000, payload := "out" }]

/-! Claim C1. -/

/-- C1 counterexample: with a fetch that finds no games at all, the script
prints the no-games line, yet the process exits with status 0 and the
top-level handler prints nothing — refuting the claimed non-zero exit
status. -/
theorem c1_counterexample :
    Event.logNoGames ∈ (script envEmpty USERNAME START_DATE END_DATE TIMEZONE
      parsedStart parsedEnd startTs endTs).trace ∧
    (script envEmpty USERNAME START_DATE END_DATE TIMEZONE
      parsedStart parsedEnd startTs endTs).exitCode = 0 := by
  decide

/-- C1 (amended): if the fetch-and-filter phase yields no games at all, the
script prints the no-games error line and returns early, and the process
exits with status zero (the bare return on the no-games path is not an
exception, so the top-level handler never calls sys.exit). -/
theorem c1_amended_no_games_prints_error_and_exits_zero {α : Type}
    (env : Env α) (u sS eS tz : String) (sD eD : Date) (sT eT : Int)
    (tr : List (Event α))
    (hF : runFetchPhase (α := α) env.fetch u sT eT sD eD = (tr, Except.ok [])) :
    (script env u sS eS tz sD eD sT eT).exitCode = 0 ∧
    Event.logNoGames ∈ (script env u sS eS tz sD eD sT eT).trace := by
  rcases mainRun_shape env u sS eS tz sD eD sT eT with
    ⟨tr', e, hp, hm⟩ | ⟨tr', hp, hm⟩ | ⟨tr', gs, e, hp, hne, ha, hm⟩ |
    ⟨tr', gs, ma, e, hp, hne, ha, hd, hm⟩ | ⟨tr', gs, ma, hp, hne, ha, hd, hm⟩
  · rw [hF] at hp; simp at hp
  · rw [script_ok env u sS eS tz sD eD sT eT hm]
    simp
  · rw [hF] at hp; simp at hp; exact absurd hp.2 hne
  · rw [hF] at hp; simp at hp; exact absurd hp.2 hne
  · rw [hF] at hp; simp at hp; exact absurd hp.2 hne

/-- C1 witness: the amended claim at the concrete no-games environment. -/
theorem c1_witness :
    runFetchPhase (α := Unit) envEmpty.fetch USERNAME startTs endTs
        parsedStart parsedEnd =
      ([Event.fetchAttempt 2026 1, Event.logMonthOk 2026 1 0], Except.ok []) ∧
    ((script envEmpty USERNAME START_DATE END_DATE TIMEZONE
        parsedStart parsedEnd startTs endTs).exitCode = 0 ∧
      Event.logNoGames ∈ (script envEmpty USERNAME START_DATE END_DATE TIMEZONE
        parsedStart parsedEnd startTs endTs).trace) :=
  ⟨by decide,
   c1_amended_no_games_prints_error_and_exits_zero envEmpty USERNAME START_DATE
     END_DATE TIMEZONE parsedStart parsedEnd startTs endTs
     [Event.fetchAttempt 2026 1, Event.logMonthOk 2026 1 0] (by decide)⟩

/-! Claim C2. -/

/-- C2: when the fetch of the current month raises, the loop body catches
the exception, logs the per-month error line with the exception message,
and the run continues exactly as the loop starting from the next month:
the trace continues with the remaining months and the accumulated game
list is exactly the one the remaining months produce, with the
contributions of the months already processed kept unchanged around this
call; the failure itself never aborts the run. -/
theorem c2_month_fetch_failure_is_caught {α : Type}
    (fetch : String → Int → Int → Except String (List Game)) (u : String)
    (sT eT : Int) (endD cur next : Date) (msg : String) (fuel : Nat)
    (hg : cur.leb endD = true)
    (hfe : fetch u cur.year cur.month = Except.error msg)
    (hnm : cur.nextMonth = Except.ok next) :
    fetchLoopF (α := α) (fuel + 1) fetch u sT eT endD cur =
      (Event.fetchAttempt cur.year cur.month ::
         Event.logMonthErr cur.year cur.month msg ::
         (fetchLoopF (α := α) fuel fetch u sT eT endD next).1,
       (fetchLoopF (α := α) fuel fetch u sT eT endD next).2) :=
  fetchLoopF_step_err fetch u sT eT endD hg hfe hnm

/-- C2 witness: January raises, February is still processed and the game
list is the one February produces. -/
theorem c2_witness :
    (Date.leb ⟨2026, 1, 1⟩ ⟨2026, 2, 28⟩ = true ∧
      fetchJanFails USERNAME 2026 1 = Except.error ("HTTPError 500") ∧
      Date.nextMonth ⟨2026, 1, 1⟩ = Except.ok ⟨2026, 2, 1⟩) ∧
    fetchLoopF (α := Unit) (4 + 1) fetchJanFails USERNAME startTs endTs
        ⟨2026, 2, 28⟩ ⟨2026, 1, 1⟩ =
      (Event.fetchAttempt 2026 1 ::
         Event.logMonthErr 2026 1 ("HTTPError 500") ::
         (fetchLoopF (α := Unit) 4 fetchJanFails USERNAME startTs endTs
           ⟨2026, 2, 28⟩ ⟨2026, 2, 1⟩).1,
       (fetchLoopF (α := Unit) 4 fetchJanFails USERNAME startTs endTs
         ⟨2026, 2, 28⟩ ⟨2026, 2, 1⟩).2) :=
  ⟨⟨by decide, by decide, by decide⟩,
   c2_month_fetch_failure_is_caught fetchJanFails USERNAME startTs endTs
     ⟨2026, 2, 28⟩ ⟨2026, 1, 1⟩ ⟨2026, 2, 1⟩ ("HTTPError 500") 4
     (by decide) (by decide) (by decide)⟩

/-! Claim C3. -/

/-- C3: a game record returned by the fetch collaborator during the run is
in the accumulated list (the list later passed to analysis and serialized)
if and only if the datetime of its end-time field lies in the closed
interval from the start datetime to the end datetime. -/
theorem c3_game_kept_iff_date_in_range {α : Type}
    (fetch : String → Int → Int → Except String (List Game)) (u : String)
    (sT eT : Int) (sD eD : Date) (tr : List (Event α)) (gs : List Game)
    (hF : runFetchPhase (α := α) fetch u sT eT sD eD = (tr, Except.ok gs))
    (g : Game) :
    g ∈ gs ↔
      g ∈ gamesReturned fetch u (fetchAttempts tr) ∧ inRange sT eT g = true := by
  unfold runFetchPhase at hF
  have htr : (fetchLoopF (α := α) (fetchFuel sD eD) fetch u sT eT eD sD).1 = tr := by
    rw [hF]
  have hres : (fetchLoopF (α := α) (fetchFuel sD eD) fetch u sT eT eD sD).2 =
      Except.ok gs := by
    rw [hF]
  have hchar := loopGames_filter fetch u sT eT eD (fetchFuel sD eD) sD gs hres
  rw [htr] at hchar
  rw [hchar, List.mem_filter]

/-- C3 witness: of two returned games, the one inside the interval is kept
and the one outside is dropped. -/
theorem c3_witness :
    runFetchPhase (α := Unit) fetchMixed USERNAME 0 100 parsedStart parsedEnd =
      ([Event.fetchAttempt 2026 1, Event.logMonthOk 2026 1 1],
        Except.ok [{ end_time := some 10, payload := "in" }]) ∧
    (({ end_time := some 10, payload := "in" } : Game) ∈
        [({ end_time := some 10, payload := "in" } : Game)] ↔
      ({ end_time := some 10, payload := "in" } : Game) ∈
          gamesReturned fetchMixed USERNAME
            (fetchAttempts (α := Unit)
              [Event.fetchAttempt 2026 1, Event.logMonthOk 2026 1 1]) ∧
        inRange 0 100 { end_time := some 10, payload := "in" } = true) :=
  ⟨by decide,
   c3_game_kept_iff_date_in_range (α := Unit) fetchMixed USERNAME 0 100
     parsedStart parsedEnd
     [Event.fetchAttempt 2026 1, Event.logMonthOk 2026 1 1]
     [{ end_time := some 10, payload := "in" }] (by decide)
     { end_time := some 10, payload := "in" }⟩

/-! Claim C4. -/

/-- C4: when at least one game is found and the aggregation and the
serialization succeed, the serialized object has a metadata field holding
exactly the username, the start date, the end date, the timezone, the
analysis timestamp and the total game count, a mistake_analysis field
holding exactly the value the aggregation returned, and a games field
holding the full accumulated date-filtered game list. -/
theorem c4_serialized_output_structure {α : Type}
    (env : Env α) (u sS eS tz : String) (sD eD : Date) (sT eT : Int)
    (tr : List (Event α)) (gs : List Game) (ma : α)
    (hF : runFetchPhase (α := α) env.fetch u sT eT sD eD = (tr, Except.ok gs))
    (hne : gs ≠ [])
    (ha : env.analyze u gs = Except.ok ma)
    (hd : env.dump
        { metadata :=
            { username := u, start_date := sS, end_date := eS, timezone := tz,
              analysis_date := env.now, total_games := gs.length }
          mistake_analysis := ma
          games := gs } = Except.ok ()) :
    Event.writeFile (outputPath u sS eS)
        { metadata :=
            { username := u, start_date := sS, end_date := eS, timezone := tz,
              analysis_date := env.now, total_games := gs.length }
          mistake_analysis := ma
          games := gs } ∈ (script env u sS eS tz sD eD sT eT).trace := by
  have hd' : env.dump (mkOutput u sS eS tz env.now ma gs) = Except.ok () := hd
  rcases mainRun_shape env u sS eS tz sD eD sT eT with
    ⟨tr', e, hp, hm⟩ | ⟨tr', hp, hm⟩ | ⟨tr', gs', e, hp, hne', ha', hm⟩ |
    ⟨tr', gs', ma', e, hp, hne', ha', hd2, hm⟩ |
    ⟨tr', gs', ma', hp, hne', ha', hd2, hm⟩
  · rw [hF] at hp; simp at hp
  · rw [hF] at hp; simp at hp; exact absurd hp.2 hne
  · rw [hF] at hp; simp at hp
    obtain ⟨htr, hgs⟩ := hp
    subst hgs
    rw [ha] at ha'; simp at ha'
  · rw [hF] at hp; simp at hp
    obtain ⟨htr, hgs⟩ := hp
    subst hgs
    rw [ha] at ha'; simp at ha'
    subst ha'
    rw [hd'] at hd2; simp at hd2
  · rw [hF] at hp; simp at hp
    obtain ⟨htr, hgs⟩ := hp
    subst hgs
    rw [ha] at ha'; simp at ha'
    subst ha'
    rw [script_ok env u sS eS tz sD eD sT eT hm]
    simp [mkOutput]

/-- C4 witness: the structure theorem at the one-game environment. -/
theorem c4_witness :
    (runFetchPhase (α := Unit) envOne.fetch USERNAME startTs endTs
        parsedStart parsedEnd =
      ([Event.fetchAttempt 2026 1, Event.logMonthOk 2026 1 1],
        Except.ok [{ end_time := some 1768000000, payload := "g1" }])) ∧
    Event.writeFile (outputPath USERNAME START_DATE END_DATE)
        { metadata :=
            { username := USERNAME, start_date := START_DATE,
              end_date := END_DATE, timezone := TIMEZONE,
              analysis_date := envOne.now,
              total_games := [({ end_time := some 1768000000, payload := "g1" } : Game)].length }
          mistake_analysis := ()
          games := [{ end_time := some 1768000000, payload := "g1" }] } ∈
      (script envOne USERNAME START_DATE END_DATE TIMEZONE parsedStart parsedEnd
        startTs endTs).trace :=
  ⟨by decide,
   c4_serialized_output_structure envOne USERNAME START_DATE END_DATE TIMEZONE
     parsedStart parsedEnd startTs endTs
     [Event.fetchAttempt 2026 1, Event.logMonthOk 2026 1 1]
     [{ end_time := some 1768000000, payload := "g1" }] () (by decide)
     (by decide) (by decide) (by decide)⟩

/-! Claim C5. -/

/-- C5: every output object the script serializes records under
total_games in its metadata exactly the length of the list stored under
games in the same object. -/
theorem c5_total_games_equals_games_length {α : Type}
    (env : Env α) (u sS eS tz : String) (sD eD : Date) (sT eT : Int)
    (p : String) (data : Output α)
    (hmem : Event.writeFile p data ∈ (script env u sS eS tz sD eD sT eT).trace) :
    data.metadata.total_games = data.games.length := by
  rcases mainRun_shape env u sS eS tz sD eD sT eT with
    ⟨tr, e, hp, hm⟩ | ⟨tr, hp, hm⟩ | ⟨tr, gs, e, hp, hne, ha, hm⟩ |
    ⟨tr, gs, ma, e, hp, hne, ha, hd, hm⟩ | ⟨tr, gs, ma, hp, hne, ha, hd, hm⟩
  · rw [script_err env u sS eS tz sD eD sT eT hm] at hmem
    have := (runFetch_events env.fetch u sT eT hp _ hmem).2.1
    simp [Event.isWriteFile] at this
  · rw [script_ok env u sS eS tz sD eD sT eT hm] at hmem
    rcases List.mem_append.mp hmem with h | h
    · have := (runFetch_events env.fetch u sT eT hp _ h).2.1
      simp [Event.isWriteFile] at this
    · simp at h
  · rw [script_err env u sS eS tz sD eD sT eT hm] at hmem
    rcases List.mem_append.mp hmem with h | h
    · have := (runFetch_events env.fetch u sT eT hp _ h).2.1
      simp [Event.isWriteFile] at this
    · simp at h
  · rw [script_err env u sS eS tz sD eD sT eT hm] at hmem
    rcases List.mem_append.mp hmem with h | h
    · have := (runFetch_events env.fetch u sT eT hp _ h).2.1
      simp [Event.isWriteFile] at this
    · simp at h
  · rw [script_ok env u sS eS tz sD eD sT eT hm] at hmem
    rcases List.mem_append.mp hmem with h | h
    · have := (runFetch_events env.fetch u sT eT hp _ h).2.1
      simp [Event.isWriteFile] at this
    · simp at h
      obtain ⟨hpath, hdata⟩ := h
      rw [hdata]
      simp [mkOutput]

/-- C5 witness: the serialized object of the one-game run satisfies the
count equation. -/
theorem c5_witness :
    Event.writeFile (outputPath USERNAME START_DATE END_DATE)
        (mkOutput USERNAME START_DATE END_DATE TIMEZONE envOne.now ()
          [{ end_time := some 1768000000, payload := "g1" }]) ∈
      (script envOne USERNAME START_DATE END_DATE TIMEZONE parsedStart parsedEnd
        startTs endTs).trace ∧
    (mkOutput USERNAME START_DATE END_DATE TIMEZONE envOne.now ()
        [({ end_time := some 1768000000, payload := "g1" } : Game)]).metadata.total_games =
      (mkOutput USERNAME START_DATE END_DATE TIMEZONE envOne.now ()
        [({ end_time := some 1768000000, payload := "g1" } : Game)]).games.length :=
  ⟨by decide,
   c5_total_games_equals_games_length envOne USERNAME START_DATE END_DATE
     TIMEZONE parsedStart parsedEnd startTs endTs
     (outputPath USERNAME START_DATE END_DATE)
     (mkOutput USERNAME START_DATE END_DATE TIMEZONE envOne.now ()
       [{ end_time := some 1768000000, payload := "g1" }]) (by decide)⟩

/-! Claim C6. -/

/-- C6: the mistake aggregation is invoked only after the whole fetch
phase and only when the accumulated date-filtered list is non-empty, and
then exactly once, with the configured username and exactly that list: the
trace is the fetch-phase trace, then the single aggregation call, then
events none of which is an aggregation call; when the list is empty there
is no aggregation call at all. -/
theorem c6_aggregation_called_once_after_fetch {α : Type}
    (env : Env α) (u sS eS tz : String) (sD eD : Date) (sT eT : Int)
    (tr : List (Event α)) (gs : List Game)
    (hF : runFetchPhase (α := α) env.fetch u sT eT sD eD = (tr, Except.ok gs)) :
    (gs = [] → ∀ e ∈ (script env u sS eS tz sD eD sT eT).trace,
      e.isAnalyzeCall = false) ∧
    (gs ≠ [] → ∃ t, (script env u sS eS tz sD eD sT eT).trace =
        tr ++ Event.analyzeCall u gs :: t ∧
      (∀ e ∈ tr, e.isAnalyzeCall = false) ∧
      (∀ e ∈ t, e.isAnalyzeCall = false)) := by
  rcases mainRun_shape env u sS eS tz sD eD sT eT with
    ⟨tr', e, hp, hm⟩ | ⟨tr', hp, hm⟩ | ⟨tr', gs', e, hp, hne', ha', hm⟩ |
    ⟨tr', gs', ma', e, hp, hne', ha', hd', hm⟩ |
    ⟨tr', gs', ma', hp, hne', ha', hd', hm⟩
  · rw [hF] at hp; simp at hp
  · rw [hF] at hp; simp at hp
    obtain ⟨htr, hgs⟩ := hp
    subst htr
    constructor
    · intro _ e he
      rw [script_ok env u sS eS tz sD eD sT eT hm] at he
      rcases List.mem_append.mp he with h | h
      · exact (runFetch_events env.fetch u sT eT hF _ h).1
      · simp at h; rw [h]; rfl
    · intro hne; exact absurd hgs hne
  · rw [hF] at hp; simp at hp
    obtain ⟨htr, hgs⟩ := hp
    subst htr; subst hgs
    refine ⟨fun h => absurd h hne', fun _ => ⟨[], ?_, ?_, by simp⟩⟩
    · rw [script_err env u sS eS tz sD eD sT eT hm]
    · exact fun e he => (runFetch_events env.fetch u sT eT hF _ he).1
  · rw [hF] at hp; simp at hp
    obtain ⟨htr, hgs⟩ := hp
    subst htr; subst hgs
    refine ⟨fun h => absurd h hne', fun _ => ⟨[], ?_, ?_, by simp⟩⟩
    · rw [script_err env u sS eS tz sD eD sT eT hm]
    · exact fun e he => (runFetch_events env.fetch u sT eT hF _ he).1
  · rw [hF] at hp; simp at hp
    obtain ⟨htr, hgs⟩ := hp
    subst htr; subst hgs
    refine ⟨fun h => absurd h hne',
      fun _ => ⟨[Event.writeFile (outputPath u sS eS)
        (mkOutput u sS eS tz env.now ma' gs)], ?_, ?_, ?_⟩⟩
    · rw [script_ok env u sS eS tz sD eD sT eT hm]
    · exact fun e he => (runFetch_events env.fetch u sT eT hF _ he).1
    · intro e he; simp at he; rw [he]; rfl

/-- C6 witness: the one-game run calls the aggregation exactly once, after
the fetch phase. -/
theorem c6_witness :
    (runFetchPhase (α := Unit) envOne.fetch USERNAME startTs endTs
        parsedStart parsedEnd =
      ([Event.fetchAttempt 2026 1, Event.logMonthOk 2026 1 1],
        Except.ok [{ end_time := some 1768000000, payload := "g1" }])) ∧
    (([({ end_time := some 1768000000, payload := "g1" } : Game)] = [] →
      ∀ e ∈ (script envOne USERNAME START_DATE END_DATE TIMEZONE parsedStart
        parsedEnd startTs endTs).trace, e.isAnalyzeCall = false) ∧
    ([({ end_time := some 1768000000, payload := "g1" } : Game)] ≠ [] →
      ∃ t, (script envOne USERNAME START_DATE END_DATE TIMEZONE parsedStart
          parsedEnd startTs endTs).trace =
        [Event.fetchAttempt 2026 1, Event.logMonthOk 2026 1 1] ++
          Event.analyzeCall USERNAME
            [{ end_time := some 1768000000, payload := "g1" }] :: t ∧
      (∀ e ∈ ([Event.fetchAttempt 2026 1, Event.logMonthOk 2026 1 1] :
          List (Event Unit)), e.isAnalyzeCall = false) ∧
      (∀ e ∈ t, e.isAnalyzeCall = false))) :=
  ⟨by decide,
   c6_aggregation_called_once_after_fetch envOne USERNAME START_DATE END_DATE
     TIMEZONE parsedStart parsedEnd startTs endTs
     [Event.fetchAttempt 2026 1, Event.logMonthOk 2026 1 1]
     [{ end_time := some 1768000000, payload := "g1" }] (by decide)⟩

/-! Claim C7. -/

/-- C7 counterexample: the start date 2026-01-15 is not after the end date
2026-02-10, so the claim demands one fetch per month from January through
February; but because the loop keeps the start day while advancing, the
February probe date (the 15th) is already past the end date, and the loop
attempts only January. -/
theorem c7_counterexample :
    Date.leb ⟨2026, 1, 15⟩ ⟨2026, 2, 10⟩ = true ∧
    monthRange ⟨2026, 1, 15⟩ ⟨2026, 2, 10⟩ = [(2026, 1), (2026, 2)] ∧
    fetchAttempts (runFetchPhase (α := Unit) fetchNone USERNAME 0 100
      ⟨2026, 1, 15⟩ ⟨2026, 2, 10⟩).1 = [(2026, 1)] := by
  decide

/-- C7 (amended): for any valid start date not after the end date whose day
of month is at most 28 and at most the end date's day of month, the loop
performs exactly one fetch attempt per calendar month from the start month
through the end month inclusive (December rolling over to January of the
next year), in chronological order, and terminates without raising.
(When the start day exceeds the end day the end month is skipped, and a
start day of 29 to 31 can raise ValueError while advancing past a shorter
month.) -/
theorem c7_amended_one_fetch_per_month {α : Type}
    (fetch : String → Int → Int → Except String (List Game)) (u : String)
    (sT eT : Int) (sD eD : Date)
    (h0 : sD.leb eD = true)
    (h1 : 1 ≤ sD.month) (h2 : sD.month ≤ 12)
    (h3 : 1 ≤ sD.day) (h4 : sD.day ≤ 28) (h5 : sD.day ≤ eD.day)
    (h6 : 1 ≤ eD.month) (h7 : eD.month ≤ 12) :
    fetchAttempts (runFetchPhase (α := α) fetch u sT eT sD eD).1 =
        monthRange sD eD ∧
      ∃ gs, (runFetchPhase (α := α) fetch u sT eT sD eD).2 = Except.ok gs := by
  have hidx : sD.idx ≤ eD.idx := (leb_iff_idx h1 h2 h6 h7 h5).mp h0
  have hfuel : (eD.idx + 1 - sD.idx).toNat < fetchFuel sD eD := by
    unfold fetchFuel; omega
  unfold runFetchPhase
  exact loopCalendar fetch u sT eT eD h6 h7 (fetchFuel sD eD) sD
    h1 h2 h3 h4 h5 hfuel

/-- C7 witness: from 2025-12-05 to 2026-02-10 the loop fetches December,
January and February, rolling the year over, and completes. -/
theorem c7_witness :
    (Date.leb ⟨2025, 12, 5⟩ ⟨2026, 2, 10⟩ = true ∧
      monthRange ⟨2025, 12, 5⟩ ⟨2026, 2, 10⟩ =
        [(2025, 12), (2026, 1), (2026, 2)]) ∧
    (fetchAttempts (runFetchPhase (α := Unit) fetchNone USERNAME 0 100
        ⟨2025, 12, 5⟩ ⟨2026, 2, 10⟩).1 = monthRange ⟨2025, 12, 5⟩ ⟨2026, 2, 10⟩ ∧
      ∃ gs, (runFetchPhase (α := Unit) fetchNone USERNAME 0 100
        ⟨2025, 12, 5⟩ ⟨2026, 2, 10⟩).2 = Except.ok gs) :=
  ⟨⟨by decide, by decide⟩,
   c7_amended_one_fetch_per_month (α := Unit) fetchNone USERNAME 0 100
     ⟨2025, 12, 5⟩ ⟨2026, 2, 10⟩ (by decide) (by decide) (by decide) (by decide)
     (by decide) (by decide) (by decide) (by decide)⟩

/-! Claim C8. -/

/-- C8: when the accumulated list is non-empty and the aggregation raises,
or the aggregation succeeds and the serialization raises, the exception
escapes main, the top-level handler prints the error line and the
traceback, and the process exits with status 1. -/
theorem c8_unhandled_exception_nonzero_exit {α : Type}
    (env : Env α) (u sS eS tz : String) (sD eD : Date) (sT eT : Int)
    (tr : List (Event α)) (gs : List Game) (e : String)
    (hF : runFetchPhase (α := α) env.fetch u sT eT sD eD = (tr, Except.ok gs))
    (hne : gs ≠ [])
    (hfail : env.analyze u gs = Except.error e ∨
      ∃ ma, env.analyze u gs = Except.ok ma ∧
        env.dump (mkOutput u sS eS tz env.now ma gs) = Except.error e) :
    (script env u sS eS tz sD eD sT eT).exitCode = 1 ∧
    (script env u sS eS tz sD eD sT eT).errorPrinted = true ∧
    (script env u sS eS tz sD eD sT eT).tracebackPrinted = true := by
  rcases mainRun_shape env u sS eS tz sD eD sT eT with
    ⟨tr', e2, hp, hm⟩ | ⟨tr', hp, hm⟩ | ⟨tr', gs', e2, hp, hne', ha', hm⟩ |
    ⟨tr', gs', ma', e2, hp, hne', ha', hd', hm⟩ |
    ⟨tr', gs', ma', hp, hne', ha', hd', hm⟩
  · rw [hF] at hp; simp at hp
  · rw [hF] at hp; simp at hp; exact absurd hp.2 hne
  · rw [script_err env u sS eS tz sD eD sT eT hm]; exact ⟨rfl, rfl, rfl⟩
  · rw [script_err env u sS eS tz sD eD sT eT hm]; exact ⟨rfl, rfl, rfl⟩
  · rw [hF] at hp; simp at hp
    obtain ⟨htr, hgs⟩ := hp
    subst hgs
    rcases hfail with hfa | ⟨ma, hok, hdump⟩
    · rw [ha'] at hfa; simp at hfa
    · rw [ha'] at hok; simp at hok
      subst hok
      rw [hd'] at hdump; simp at hdump

/-- C8 witness: an aggregation failure on the one-game run exits with
status 1 after printing the error and the traceback. -/
theorem c8_witness :
    (runFetchPhase (α := Unit) envAnalyzeFail.fetch USERNAME startTs endTs
        parsedStart parsedEnd =
      ([Event.fetchAttempt 2026 1, Event.logMonthOk 2026 1 1],
        Except.ok [{ end_time := some 1768000000, payload := "g1" }]) ∧
      envAnalyzeFail.analyze USERNAME
          [{ end_time := some 1768000000, payload := "g1" }] =
        Except.error ("engine crashed")) ∧
    ((script envAnalyzeFail USERNAME START_DATE END_DATE TIMEZONE parsedStart
        parsedEnd startTs endTs).exitCode = 1 ∧
      (script envAnalyzeFail USERNAME START_DATE END_DATE TIMEZONE parsedStart
        parsedEnd startTs endTs).errorPrinted = true ∧
      (script envAnalyzeFail USERNAME START_DATE END_DATE TIMEZONE parsedStart
        parsedEnd startTs endTs).tracebackPrinted = true) :=
  ⟨⟨by decide, by decide⟩,
   c8_unhandled_exception_nonzero_exit envAnalyzeFail USERNAME START_DATE
     END_DATE TIMEZONE parsedStart parsedEnd startTs endTs
     [Event.fetchAttempt 2026 1, Event.logMonthOk 2026 1 1]
     [{ end_time := some 1768000000, payload := "g1" }] ("engine crashed")
     (by decide) (by decide) (Or.inl (by decide))⟩

/-! Claim C9. -/

/-- C9: a fetched game record without an end-time field is read as end time
0 (the epoch), so whenever the start datetime is after the epoch the record
fails the date filter and is silently excluded from the accumulated list,
rather than causing an error. -/
theorem c9_missing_end_time_excluded {α : Type}
    (fetch : String → Int → Int → Except String (List Game)) (u : String)
    (sT eT : Int) (sD eD : Date) (tr : List (Event α)) (gs : List Game)
    (g : Game)
    (hnone : g.end_time = none) (hs : 0 < sT)
    (hF : runFetchPhase (α := α) fetch u sT eT sD eD = (tr, Except.ok gs)) :
    fromtimestamp (g.end_time.getD 0) = fromtimestamp 0 ∧
    inRange sT eT g = false ∧ g ∉ gs := by
  have h0 : fromtimestamp (g.end_time.getD 0) = fromtimestamp 0 := by
    rw [hnone, Option.getD_none]
  have hr : inRange sT eT g = false := by
    unfold inRange
    rw [hnone]
    simp only [Option.getD_none, fromtimestamp, decide_eq_false_iff_not]
    omega
  refine ⟨h0, hr, fun hmem => ?_⟩
  unfold runFetchPhase at hF
  have hres : (fetchLoopF (α := α) (fetchFuel sD eD) fetch u sT eT eD sD).2 =
      Except.ok gs := by rw [hF]
  have hchar := loopGames_filter fetch u sT eT eD (fetchFuel sD eD) sD gs hres
  rw [hchar] at hmem
  have hkept := List.of_mem_filter hmem
  rw [hr] at hkept
  exact Bool.false_ne_true hkept

/-- C9 witness: a record without end time fetched in January 2026 is
excluded from the accumulated list. -/
theorem c9_witness :
    (({ end_time := none, payload := "g0" } : Game).end_time = none ∧
      (0 : Int) < startTs ∧
      runFetchPhase (α := Unit) fetchNoEndTime USERNAME startTs endTs
          parsedStart parsedEnd =
        ([Event.fetchAttempt 2026 1, Event.logMonthOk 2026 1 0],
          Except.ok [])) ∧
    (fromtimestamp (({ end_time := none, payload := "g0" } : Game).end_time.getD 0) =
        fromtimestamp 0 ∧
      inRange startTs endTs { end_time := none, payload := "g0" } = false ∧
      ({ end_time := none, payload := "g0" } : Game) ∉ ([] : List Game)) :=
  ⟨⟨by decide, by decide, by decide⟩,
   c9_missing_end_time_excluded (α := Unit) fetchNoEndTime USERNAME startTs
     endTs parsedStart parsedEnd
     [Event.fetchAttempt 2026 1, Event.logMonthOk 2026 1 0] []
     { end_time := none, payload := "g0" } (by decide) (by decide) (by decide)⟩

/-! Claim C10. -/

/-- C10: when the fetch phase accumulates no games, main returns before the
analysis and the file write: the run produces no write event (and no
aggregation call), so the output file is neither created nor overwritten. -/
theorem c10_no_games_means_no_file_write {α : Type}
    (env : Env α) (u sS eS tz : String) (sD eD : Date) (sT eT : Int)
    (tr : List (Event α))
    (hF : runFetchPhase (α := α) env.fetch u sT eT sD eD = (tr, Except.ok [])) :
    (mainRun env u sS eS tz sD eD sT eT).2 = Except.ok none ∧
    ∀ e ∈ (script env u sS eS tz sD eD sT eT).trace,
      e.isWriteFile = false ∧ e.isAnalyzeCall = false := by
  rcases mainRun_shape env u sS eS tz sD eD sT eT with
    ⟨tr', e, hp, hm⟩ | ⟨tr', hp, hm⟩ | ⟨tr', gs, e, hp, hne, ha, hm⟩ |
    ⟨tr', gs, ma, e, hp, hne, ha, hd, hm⟩ | ⟨tr', gs, ma, hp, hne, ha, hd, hm⟩
  · rw [hF] at hp; simp at hp
  · constructor
    · rw [hm]
    · intro e he
      rw [script_ok env u sS eS tz sD eD sT eT hm] at he
      rcases List.mem_append.mp he with h | h
      · have h2 := runFetch_events env.fetch u sT eT hp _ h
        exact ⟨h2.2.1, h2.1⟩
      · simp at h; rw [h]; exact ⟨rfl, rfl⟩
  · rw [hF] at hp; simp at hp; exact absurd hp.2 hne
  · rw [hF] at hp; simp at hp; exact absurd hp.2 hne
  · rw [hF] at hp; simp at hp; exact absurd hp.2 hne

/-- C10 witness: the no-games run writes nothing. -/
theorem c10_witness :
    runFetchPhase (α := Unit) envEmpty.fetch USERNAME startTs endTs
        parsedStart parsedEnd =
      ([Event.fetchAttempt 2026 1, Event.logMonthOk 2026 1 0], Except.ok []) ∧
    ((mainRun envEmpty USERNAME START_DATE END_DATE TIMEZONE parsedStart
        parsedEnd startTs endTs).2 = Except.ok none ∧
      ∀ e ∈ (script envEmpty USERNAME START_DATE END_DATE TIMEZONE parsedStart
        parsedEnd startTs endTs).trace,
        e.isWriteFile = false ∧ e.isAnalyzeCall = false) :=
  ⟨by decide,
   c10_no_games_means_no_file_write envEmpty USERNAME START_DATE END_DATE
     TIMEZONE parsedStart parsedEnd startTs endTs
     [Event.fetchAttempt 2026 1, Event.logMonthOk 2026 1 0] (by decide)⟩

end StockfishScript
